import Mathlib

/-!
Verification of the Period Calendar and Ledger Engine of PocketMoneyTracker
(src/python/main.py), shallowly embedded in Lean 4.

Conventions of the embedding:
- Python floats are modelled as exact rationals (ℚ); `round(x, 2)` is
  modelled as round-half-to-even on hundredths (`pyRound2`), which is the
  documented behaviour of Python `round` on exact decimal values.
- Python strings (period keys) are modelled as `List Char`; `sorted` with a
  string key is modelled by a stable insertion sort under code-point
  lexicographic order, matching CPython semantics.
- Timestamps (`createdAt`, `updatedAt`) and the opaque uuid generation are
  outside the engine semantics: the fresh entry id is passed in as a
  parameter and timestamps are omitted.
- File I/O (`_load_data` and `_save_data`) is replaced by explicit state
  passing of the `Kid` record that the python code locates by id.
-/

/-- Python `round` to an integer: round-half-to-even (banker rounding).
Modelled on exact rationals: fractional part below one half rounds down,
above rounds up, exactly one half rounds to the even neighbour. -/
def pyRoundInt (y : ℚ) : ℤ :=
  if Int.fract y = 1/2 then (if (⌊y⌋ % 2) = 0 then ⌊y⌋ else ⌊y⌋ + 1)
  else if Int.fract y < 1/2 then ⌊y⌋ else ⌊y⌋ + 1

/-- Python `round(x, 2)`: scale by 100, round half to even, scale back. -/
def pyRound2 (q : ℚ) : ℚ := (pyRoundInt (100 * q) : ℚ) / 100

/-- Code-point lexicographic strict order on char lists: the comparison
Python uses on period-key strings. -/
def keyLt : List Char → List Char → Bool
  | [], [] => false
  | [], _ :: _ => true
  | _ :: _, [] => false
  | a :: as, b :: bs =>
    if a.toNat < b.toNat then true
    else if b.toNat < a.toNat then false
    else keyLt as bs

/-- One stored money entry of a kid (fields of the python entry dict;
timestamps omitted, see the header comment). -/
structure Entry where
  id : Nat
  period : List Char
  periodType : List Char
  amount : ℚ
  spentPercent : ℚ
  savedPercent : ℚ
  givenPercent : ℚ
  spent : ℚ
  saved : ℚ
  given : ℚ
  usedFromSaved : ℚ
  interestRate : ℚ
deriving DecidableEq

/-- An entry annotated by `_calculate_totals` with the interest earned in
its period and the running saved balance after it (both rounded). -/
structure AnnEntry extends Entry where
  interestEarned : ℚ
  runningSaved : ℚ
deriving DecidableEq

/-- Stable insertion of an element into a list sorted ascending by a
char-list key: the element goes before the first position whose key is not
smaller. -/
def insertByKey (key : α → List Char) (e : α) : List α → List α
  | [] => [e]
  | x :: xs => if keyLt (key x) (key e) then x :: insertByKey key e xs else e :: x :: xs

/-- Stable ascending sort by a char-list key, modelling Python
`sorted(entries, key=lambda x: x["period"])`. -/
def sortByKey (key : α → List Char) (l : List α) : List α :=
  l.foldr (insertByKey key) []

/-- State threaded through the fold of `_calculate_totals`. -/
structure FoldState where
  totalSpent : ℚ
  totalGiven : ℚ
  totalInterest : ℚ
  totalUsedFromSaved : ℚ
  runningSaved : ℚ
  processed : List AnnEntry
deriving DecidableEq

/-- The per-entry body of the fold in `DataManager._calculate_totals`:
interest on the pre-accrual balance at the entry own rate, then deposit of
the saved share, then withdrawal, with the four running sums updated. -/
def stepEntry (s : FoldState) (entry : Entry) : FoldState :=
  let interestAmount := s.runningSaved * (entry.interestRate / 100)
  let totalInterest := s.totalInterest + interestAmount
  let running1 := s.runningSaved + interestAmount
  let totalSpent := s.totalSpent + entry.spent
  let running2 := running1 + entry.saved
  let totalGiven := s.totalGiven + entry.given
  let running3 := running2 - entry.usedFromSaved
  let totalUsedFromSaved := s.totalUsedFromSaved + entry.usedFromSaved
  { totalSpent := totalSpent
    totalGiven := totalGiven
    totalInterest := totalInterest
    totalUsedFromSaved := totalUsedFromSaved
    runningSaved := running3
    processed := s.processed ++ [⟨entry, pyRound2 interestAmount, pyRound2 running3⟩] }

/-- Aggregate totals returned by `_calculate_totals`. -/
structure Totals where
  totalSpent : ℚ
  totalSaved : ℚ
  totalGiven : ℚ
  totalInterest : ℚ
  totalUsedFromSaved : ℚ
  grandTotal : ℚ
  entries : List AnnEntry
deriving DecidableEq

/-- The initial fold state of `_calculate_totals`. -/
def initState : FoldState :=
  { totalSpent := 0, totalGiven := 0, totalInterest := 0,
    totalUsedFromSaved := 0, runningSaved := 0, processed := [] }

/-- `DataManager._calculate_totals`: sort the entries ascending by period
key, fold `stepEntry` over them, then assemble the rounded aggregates.
`totalSpent` is reported with withdrawals added in. -/
def calculate_totals (entries : List Entry) : Totals :=
  let sortedEntries := sortByKey Entry.period entries
  let s := sortedEntries.foldl stepEntry initState
  let totalSpentWithUsed := s.totalSpent + s.totalUsedFromSaved
  { totalSpent := pyRound2 totalSpentWithUsed
    totalSaved := pyRound2 s.runningSaved
    totalGiven := pyRound2 s.totalGiven
    totalInterest := pyRound2 s.totalInterest
    totalUsedFromSaved := pyRound2 s.totalUsedFromSaved
    grandTotal := pyRound2 (totalSpentWithUsed + s.runningSaved + s.totalGiven)
    entries := s.processed }

/-- The period key string 2024-01. -/
def keyJan : List Char := ['2', '0', '2', '4', '-', '0', '1']

/-- The period key string 2024-02. -/
def keyFeb : List Char := ['2', '0', '2', '4', '-', '0', '2']

/-- The period key string 2024-05. -/
def keyMay : List Char := ['2', '0', '2', '4', '-', '0', '5']

/-- The period type string monthly. -/
def tyMonthly : List Char := ['m', 'o', 'n', 't', 'h', 'l', 'y']

/-- The period type string weekly. -/
def tyWeekly : List Char := ['w', 'e', 'e', 'k', 'l', 'y']

-- Concrete two-entry kid used by the spec scenarios: entry 1 saves 100 in
-- 2024-01; entry 2 saves nothing in 2024-02 at a 10 percent rate.
/-- Entry 1 of the spec scenario: amount 250 split 40/40/20, saved 100. -/
def entryOne : Entry :=
  { id := 1, period := keyJan, periodType := tyMonthly
    amount := 250, spentPercent := 40, savedPercent := 40, givenPercent := 20
    spent := 100, saved := 100, given := 50, usedFromSaved := 0, interestRate := 0 }

/-- Entry 2 of the spec scenario: amount 10 split 0/0/100, rate 10 percent. -/
def entryTwo : Entry :=
  { id := 2, period := keyFeb, periodType := tyMonthly
    amount := 10, spentPercent := 0, savedPercent := 0, givenPercent := 100
    spent := 0, saved := 0, given := 10, usedFromSaved := 0, interestRate := 10 }

/-- A whole-cent entry saving five cents in 2024-01 (amount 0.125 split
40/40/20, derived fields as the code would store them). -/
def entryCentA : Entry :=
  { id := 11, period := keyJan, periodType := tyMonthly
    amount := 1/8, spentPercent := 40, savedPercent := 40, givenPercent := 20
    spent := 1/20, saved := 1/20, given := 1/50, usedFromSaved := 0, interestRate := 0 }

/-- A whole-cent entry for 2024-02 with amount only, rate 10 percent: its
interest step of half a cent drives the running balance onto a rounding
tie. -/
def entryCentB : Entry :=
  { id := 12, period := keyFeb, periodType := tyMonthly
    amount := 1, spentPercent := 0, savedPercent := 0, givenPercent := 100
    spent := 0, saved := 0, given := 0, usedFromSaved := 0, interestRate := 10 }

/-- A kid record: default allocation percentages, default interest rate and
the stored entries (id and name are irrelevant to the engine). -/
structure Kid where
  allocationSpent : ℚ
  allocationSaved : ℚ
  allocationGiven : ℚ
  interestRate : ℚ
  entries : List Entry
deriving DecidableEq

/-- The recoverable error kinds of the spec error model, paired to the
error paths of the code: message boxes in the view handlers and the
None and False returns of the DataManager. -/
inductive LedgerError where
  | validationError
  | overdraw
  | duplicatePeriod
  | periodConflict
  | notFound
  | malformedKey
deriving DecidableEq

/-- `DataManager.add_entry` on the kid the python loop locates by id: the
only check is the duplicate-period scan; on success the derived currency
fields are rounded to 2 decimals and the entry is appended. The fresh uuid
is passed in as `newId`. -/
def dm_add_entry (kid : Kid) (newId : Nat) (period : List Char) (periodType : List Char)
    (amount interestRate spentPct savedPct givenPct usedFromSaved : ℚ) :
    Option (Kid × Entry) :=
  if kid.entries.any (fun e => e.period == period) then none
  else
    let newEntry : Entry :=
      { id := newId, period := period, periodType := periodType
        amount := amount
        spentPercent := spentPct, savedPercent := savedPct, givenPercent := givenPct
        spent := pyRound2 (amount * spentPct / 100)
        saved := pyRound2 (amount * savedPct / 100)
        given := pyRound2 (amount * givenPct / 100)
        usedFromSaved := pyRound2 usedFromSaved
        interestRate := interestRate }
    some ({ kid with entries := kid.entries ++ [newEntry] }, newEntry)

/-- `KidDetailsView._add_entry` composed with `DataManager.add_entry`: the
view checks amount positive, withdrawal non-negative and the withdrawal
ceiling — the kid current `totalSaved` — before calling the data layer,
which then only rejects duplicates. Percentages and rate come from the kid
stored defaults. -/
def ui_add_entry (kid : Kid) (newId : Nat) (periodKey : List Char) (periodType : List Char)
    (amount usedFromSaved : ℚ) : Except LedgerError Kid :=
  if amount ≤ 0 then .error .validationError
  else if usedFromSaved < 0 then .error .validationError
  else if usedFromSaved > (calculate_totals kid.entries).totalSaved then .error .overdraw
  else
    match dm_add_entry kid newId periodKey periodType amount kid.interestRate
        kid.allocationSpent kid.allocationSaved kid.allocationGiven usedFromSaved with
    | none => .error .duplicatePeriod
    | some (kid1, _) => .ok kid1

/-- The field replacement `DataManager.update_entry` performs on the entry
it finds, after the optional period move. -/
def replaceFields (e : Entry) (amount spentPct savedPct givenPct interestRate
    usedFromSaved : ℚ) (newPeriod : List Char) (newPeriodType : List Char) : Entry :=
  { e with
    period := newPeriod, periodType := newPeriodType
    amount := amount
    spentPercent := spentPct, savedPercent := savedPct, givenPercent := givenPct
    spent := pyRound2 (amount * spentPct / 100)
    saved := pyRound2 (amount * savedPct / 100)
    given := pyRound2 (amount * givenPct / 100)
    usedFromSaved := pyRound2 usedFromSaved
    interestRate := interestRate }

/-- The entry scan of `DataManager.update_entry`: walk the entry list for
`entryId`; at the match, reject a period move onto a key owned by another
entry (scanning the full original list `all`), otherwise replace the
mutable fields in place. `none` models the False returns. -/
def dm_update_go (all : List Entry) (entryId : Nat) (amount spentPct savedPct givenPct
    interestRate usedFromSaved : ℚ) (period : List Char) (periodType : List Char) :
    List Entry → Option (List Entry)
  | [] => none
  | e :: rest =>
    if e.id == entryId then
      if period != e.period && all.any (fun o => o.id != entryId && o.period == period) then
        none
      else
        some (replaceFields e amount spentPct savedPct givenPct interestRate
          usedFromSaved period periodType :: rest)
    else
      (dm_update_go all entryId amount spentPct savedPct givenPct interestRate
        usedFromSaved period periodType rest).map (e :: ·)

/-- `DataManager.update_entry` on the located kid. The python `period`
argument is always a non-empty key string in the edit flow, so the falsy
branch for None and for the empty string collapses to the key comparison. -/
def dm_update_entry (kid : Kid) (entryId : Nat) (amount spentPct savedPct givenPct
    interestRate usedFromSaved : ℚ) (period : List Char) (periodType : List Char) :
    Option Kid :=
  (dm_update_go kid.entries entryId amount spentPct savedPct givenPct interestRate
      usedFromSaved period periodType kid.entries).map
    (fun l => { kid with entries := l })

/-- The walk of `KidDetailsView._edit_entry` over the annotated entries
sorted by period key: carry the annotated `runningSaved` of the previous
entry until the target id is found, returning that prior balance and the
target. -/
def availBeforeWalk (entryId : Nat) : ℚ → List AnnEntry → Option (ℚ × AnnEntry)
  | _, [] => none
  | prev, e :: rest =>
    if e.id == entryId then some (prev, e)
    else availBeforeWalk entryId e.runningSaved rest

/-- `KidDetailsView._edit_entry` composed with `EditEntryDialog._save` and
`DataManager.update_entry`: the ceiling for the edited withdrawal is the
annotated running balance before the target plus the target stored saved
share; the dialog validates amount, percentage sum, non-negativity and the
ceiling in that order before the data layer replaces the fields. -/
def ui_edit_entry (kid : Kid) (entryId : Nat) (amount spentPct savedPct givenPct
    interestRate usedFromSaved : ℚ) (newPeriod : List Char) (newPeriodType : List Char) :
    Except LedgerError Kid :=
  match availBeforeWalk entryId 0
      (sortByKey (fun a => a.toEntry.period) (calculate_totals kid.entries).entries) with
  | none => .error .notFound
  | some (availableBefore, target) =>
    let availableSaved := availableBefore + target.saved
    if amount ≤ 0 then .error .validationError
    else if |spentPct + savedPct + givenPct - 100| > 1/100 then .error .validationError
    else if usedFromSaved < 0 then .error .validationError
    else if usedFromSaved > availableSaved then .error .overdraw
    else
      match dm_update_entry kid entryId amount spentPct savedPct givenPct interestRate
          usedFromSaved newPeriod newPeriodType with
      | none => .error .periodConflict
      | some kid1 => .ok kid1

/-- An entry that withdraws 50 while nothing was ever saved. -/
def entryOverdrawn : Entry :=
  { id := 7, period := keyMay, periodType := tyMonthly
    amount := 10, spentPercent := 100, savedPercent := 0, givenPercent := 0
    spent := 10, saved := 0, given := 0, usedFromSaved := 50, interestRate := 0 }

/-- The kid of the spec withdrawal scenarios: entries stored out of order. -/
def kidTwo : Kid :=
  { allocationSpent := 40, allocationSaved := 40, allocationGiven := 20
    interestRate := 0, entries := [entryTwo, entryOne] }

/-- A kid holding only entry 1 (saved balance 100), used for the add-entry
ceiling scenarios. -/
def kidC3 : Kid :=
  { allocationSpent := 40, allocationSaved := 40, allocationGiven := 20
    interestRate := 0, entries := [entryOne] }

/-- A kid with no entries. -/
def kidEmpty : Kid :=
  { allocationSpent := 40, allocationSaved := 40, allocationGiven := 20
    interestRate := 0, entries := [] }

/-- Gregorian leap-year test of the python datetime module. -/
def isLeap (y : ℤ) : Bool :=
  y % 4 == 0 && (y % 100 != 0 || y % 400 == 0)

/-- Days in all years strictly before year `y` (python `_days_before_year`);
proleptic Gregorian, so ordinal 1 is January 1 of year 1. Python floor
division is `Int.fdiv`. -/
def daysBeforeYear (y : ℤ) : ℤ :=
  365 * (y - 1) + (y - 1).fdiv 4 - (y - 1).fdiv 100 + (y - 1).fdiv 400

/-- The cumulative day table `_DAYS_BEFORE_MONTH` of python datetime. -/
def daysBeforeMonthTable : Nat → ℤ
  | 1 => 0
  | 2 => 31
  | 3 => 59
  | 4 => 90
  | 5 => 120
  | 6 => 151
  | 7 => 181
  | 8 => 212
  | 9 => 243
  | 10 => 273
  | 11 => 304
  | 12 => 334
  | _ => 365

/-- Days in year `y` strictly before month `m` (python `_days_before_month`). -/
def daysBeforeMonth (y : ℤ) (m : Nat) : ℤ :=
  daysBeforeMonthTable m + (if 2 < m ∧ isLeap y then 1 else 0)

/-- `datetime(y, m, d).toordinal()`: the proleptic Gregorian ordinal. -/
def toOrdinal (y : ℤ) (m d : Nat) : ℤ :=
  daysBeforeYear y + daysBeforeMonth y m + d

/-- Modelled from the spec: the number of days of month `m` of year `y`
(the last calendar day of the month), with February of a leap year having
29 days. Comparison target for the computed date ranges. -/
def monthLengthSpec (y : ℤ) (m : Nat) : Nat :=
  match m with
  | 1 => 31
  | 2 => if isLeap y then 29 else 28
  | 3 => 31
  | 4 => 30
  | 5 => 31
  | 6 => 30
  | 7 => 31
  | 8 => 31
  | 9 => 30
  | 10 => 31
  | 11 => 30
  | 12 => 31
  | _ => 0

/-- `PeriodHelper.get_month_dates`: first of the month, and the last day
computed as first-of-next-month minus one day, December ending on the
31st. Dates are represented by their ordinals. -/
def get_month_dates (month : Nat) (year : ℤ) : ℤ × ℤ :=
  (toOrdinal year month 1,
   if month = 12 then toOrdinal year 12 31 else toOrdinal year (month + 1) 1 - 1)

/-- `PeriodHelper.get_quarter_dates`: first day of the first month of the
quarter, and last day of its third month via calendar subtraction. -/
def get_quarter_dates (quarter : Nat) (year : ℤ) : ℤ × ℤ :=
  let startMonth := (quarter - 1) * 3 + 1
  let endMonth := startMonth + 2
  (toOrdinal year startMonth 1,
   if endMonth = 12 then toOrdinal year 12 31 else toOrdinal year (endMonth + 1) 1 - 1)

/-- The `_isoweek1monday` helper of python datetime: the ordinal of the
Monday starting ISO week 1 of `year`. -/
def isoweek1monday (year : ℤ) : ℤ :=
  let firstday := toOrdinal year 1 1
  let firstweekday := (firstday + 6) % 7
  let week1monday := firstday - firstweekday
  if firstweekday > 3 then week1monday + 7 else week1monday

/-- The week component of `date(y, m, d).isocalendar()`, with the python
adjustment branches for dates falling in the last week of the previous
year or the first week of the next. -/
def isocalendarWeek (y : ℤ) (m d : Nat) : ℤ :=
  let today := toOrdinal y m d
  let week := (today - isoweek1monday y).fdiv 7
  if week < 0 then (today - isoweek1monday (y - 1)).fdiv 7 + 1
  else if week ≥ 52 ∧ today ≥ isoweek1monday (y + 1) then 1
  else week + 1

/-- `PeriodHelper.get_max_weeks_in_year`: the ISO week number of
December 28. -/
def get_max_weeks_in_year (year : ℤ) : ℤ :=
  isocalendarWeek year 12 28

/-- A period value: the tagged year/index records the python period dicts
carry, one constructor per period type. -/
inductive Period where
  | weekly (year week : ℤ)
  | biweekly (year biweek : ℤ)
  | quarterly (year quarter : ℤ)
  | monthly (year month : ℤ)
deriving DecidableEq

/-- `PeriodHelper.navigate_period`: move one unit in `direction`, rolling
the year over and wrapping the index into the valid range of the new year. -/
def navigate_period (p : Period) (direction : ℤ) : Period :=
  match p with
  | .weekly year week =>
    let maxWeeks := get_max_weeks_in_year year
    let w := week + direction
    if w < 1 then .weekly (year - 1) (get_max_weeks_in_year (year - 1))
    else if w > maxWeeks then .weekly (year + 1) 1
    else .weekly year w
  | .biweekly year biweek =>
    let maxBiweeks := (get_max_weeks_in_year year + 1).fdiv 2
    let b := biweek + direction
    if b < 1 then .biweekly (year - 1) ((get_max_weeks_in_year (year - 1) + 1).fdiv 2)
    else if b > maxBiweeks then .biweekly (year + 1) 1
    else .biweekly year b
  | .quarterly year quarter =>
    let q := quarter + direction
    if q < 1 then .quarterly (year - 1) 4
    else if q > 4 then .quarterly (year + 1) 1
    else .quarterly year q
  | .monthly year month =>
    let m := month + direction
    if m < 1 then .monthly (year - 1) 12
    else if m > 12 then .monthly (year + 1) 1
    else .monthly year m

/-- Little-endian decimal digits of a natural number (empty for 0):
the arithmetic core of python str(int). -/
def digitsRev (n : Nat) : List Nat :=
  if n = 0 then [] else (n % 10) :: digitsRev (n / 10)
decreasing_by exact Nat.div_lt_self (Nat.pos_of_ne_zero (by assumption)) (by norm_num)

/-- The value of a little-endian decimal digit list: the arithmetic core
of python int(str). -/
def ofDigitsRev : List Nat → Nat
  | [] => 0
  | d :: ds => d + 10 * ofDigitsRev ds

/-- The character of a decimal digit. -/
def digitToChar (d : Nat) : Char := Char.ofNat (48 + d)

/-- The decimal digit value of a character. -/
def charVal (c : Char) : Nat := c.toNat - 48

/-- Whether a character is a decimal digit (the shapes python int accepts
in the period keys; int also strips signs and blanks, which never occur in
generated keys). -/
def isDigitC (c : Char) : Bool := decide (48 ≤ c.toNat) && decide (c.toNat ≤ 57)

/-- python str(n) for a natural number, as a char list. -/
def natChars (n : Nat) : List Char :=
  if n = 0 then ['0'] else ((digitsRev n).reverse.map digitToChar)

/-- python format {:02d} for a natural number: zero padded to width 2. -/
def pad2 (n : Nat) : List Char :=
  if n < 10 then '0' :: natChars n else natChars n

/-- `PeriodHelper.get_period_key`: the canonical key string of a period.
Years and indices of valid periods are non-negative, so the python int
formatting is plain decimal digits. -/
def get_period_key (p : Period) : List Char :=
  match p with
  | .weekly y w => natChars y.toNat ++ '-' :: 'W' :: pad2 w.toNat
  | .biweekly y b => natChars y.toNat ++ '-' :: 'B' :: 'W' :: pad2 b.toNat
  | .quarterly y q => natChars y.toNat ++ '-' :: 'Q' :: natChars q.toNat
  | .monthly y m => natChars y.toNat ++ '-' :: pad2 m.toNat

/-- python substring membership `sep in s`. -/
def hasSubstr (sep : List Char) : List Char → Bool
  | [] => sep.isEmpty
  | c :: rest => sep.isPrefixOf (c :: rest) || hasSubstr sep rest

/-- The first occurrence split python s.split(sep) is built from: the part
before the first occurrence of `sep` and the part after it, if any. -/
def splitFirst (sep : List Char) : List Char → Option (List Char × List Char)
  | [] => none
  | c :: rest =>
    if sep.isPrefixOf (c :: rest) then some ([], (c :: rest).drop sep.length)
    else
      match splitFirst sep rest with
      | some (pre, post) => some (c :: pre, post)
      | none => none

/-- python int() on a char list: digits only, empty rejected. -/
def toNatC (cs : List Char) : Option Nat :=
  if cs.isEmpty then none
  else if cs.all isDigitC then some (ofDigitsRev ((cs.map charVal).reverse))
  else none

/-- `PeriodHelper.parse_period_key`: the branch order of the python code
(check -W, then -BW, then -Q, else monthly), where the two-variable tuple
unpacking of `split` demands exactly two parts, hence no second occurrence
of the separator; failures of the unpacking or of int() give `none`. -/
def parse_period_key (key : List Char) : Option Period :=
  if hasSubstr ['-', 'W'] key then
    match splitFirst ['-', 'W'] key with
    | some (ys, ws) =>
      if hasSubstr ['-', 'W'] ws then none
      else
        match toNatC ys, toNatC ws with
        | some y, some w => some (.weekly (Int.ofNat y) (Int.ofNat w))
        | _, _ => none
    | none => none
  else if hasSubstr ['-', 'B', 'W'] key then
    match splitFirst ['-', 'B', 'W'] key with
    | some (ys, bs) =>
      if hasSubstr ['-', 'B', 'W'] bs then none
      else
        match toNatC ys, toNatC bs with
        | some y, some b => some (.biweekly (Int.ofNat y) (Int.ofNat b))
        | _, _ => none
    | none => none
  else if hasSubstr ['-', 'Q'] key then
    match splitFirst ['-', 'Q'] key with
    | some (ys, qs) =>
      if hasSubstr ['-', 'Q'] qs then none
      else
        match toNatC ys, toNatC qs with
        | some y, some q => some (.quarterly (Int.ofNat y) (Int.ofNat q))
        | _, _ => none
    | none => none
  else
    match splitFirst ['-'] key with
    | some (ys, ms) =>
      if hasSubstr ['-'] ms then none
      else
        match toNatC ys, toNatC ms with
        | some y, some m => some (.monthly (Int.ofNat y) (Int.ofNat m))
        | _, _ => none
    | none => none

set_option maxRecDepth 8192

/-- The two spec entries arrive sorted ascending by period key even when the
stored order is reversed. -/
theorem sort_spec_pair : sortByKey Entry.period [entryTwo, entryOne] = [entryOne, entryTwo] := by
  simp [sortByKey, insertByKey, keyLt, entryOne, entryTwo]

/-- C1: the chronological fold of `_calculate_totals` on the two-entry kid
of the spec (entry 1 saves 100, entry 2 saves 0 at rate 10, stored out of
order) annotates entry 1 with interest 0 and running balance 100, annotates
entry 2 with interest 10 — computed from the pre-accrual balance 100 at the
own rate of entry 2 — and running balance 110, and reports total interest
10 and final saved balance 110. -/
theorem c1_interest_ordering :
    ((calculate_totals [entryTwo, entryOne]).entries.map
      (fun a => (a.id, a.interestEarned, a.runningSaved))) = [(1, 0, 100), (2, 10, 110)]
    ∧ (calculate_totals [entryTwo, entryOne]).totalInterest = 10
    ∧ (calculate_totals [entryTwo, entryOne]).totalSaved = 110 := by
  refine ⟨?_, ?_, ?_⟩ <;>
  · simp only [calculate_totals, sort_spec_pair]
    simp only [List.foldl, stepEntry, initState]
    norm_num [entryOne, entryTwo, pyRound2, pyRoundInt, Int.fract]

/-- C10: `_calculate_totals` runs no withdrawal-ceiling or non-negativity
check: on any single entry it reports the rounded value of saved minus
withdrawn, and on an entry withdrawing 50 with nothing saved it returns the
negative balance -50, both as the final total and in the per-entry
annotation, instead of an error. -/
theorem c10_totals_total_no_check :
    (∀ e : Entry, (calculate_totals [e]).totalSaved = pyRound2 (e.saved - e.usedFromSaved))
    ∧ (calculate_totals [entryOverdrawn]).totalSaved = -50
    ∧ ((calculate_totals [entryOverdrawn]).entries.map (fun a => a.runningSaved)) = [-50] := by
  have hone : ∀ e : Entry, (calculate_totals [e]).totalSaved
      = pyRound2 (e.saved - e.usedFromSaved) := by
    intro e
    simp only [calculate_totals, sortByKey, insertByKey, List.foldr, List.foldl,
      stepEntry, initState]
    ring_nf
  refine ⟨hone, ?_, ?_⟩
  · rw [hone entryOverdrawn]
    norm_num [entryOverdrawn, pyRound2, pyRoundInt, Int.fract]
  · simp only [calculate_totals, sortByKey, insertByKey, List.foldr, List.foldl,
      stepEntry, initState]
    norm_num [entryOverdrawn, pyRound2, pyRoundInt, Int.fract]

/-- The annotated entries `_calculate_totals` returns for the two-entry kid. -/
theorem calc_kidTwo_entries :
    (calculate_totals kidTwo.entries).entries
    = [⟨entryOne, 0, 100⟩, ⟨entryTwo, 10, 110⟩] := by
  simp only [kidTwo, calculate_totals, sort_spec_pair]
  simp only [List.foldl, stepEntry, initState]
  norm_num [entryOne, entryTwo, pyRound2, pyRoundInt, Int.fract]

/-- Sorting the annotated pair again (as `_edit_entry` does) keeps it fixed. -/
theorem sort_ann_pair :
    sortByKey (fun a => a.toEntry.period) [(⟨entryOne, 0, 100⟩ : AnnEntry), ⟨entryTwo, 10, 110⟩]
    = [⟨entryOne, 0, 100⟩, ⟨entryTwo, 10, 110⟩] := by
  simp [sortByKey, insertByKey, keyLt, entryOne, entryTwo]

/-- The `_edit_entry` walk finds entry 2 with prior balance 100. -/
theorem walk_kidTwo :
    availBeforeWalk 2 0 [(⟨entryOne, 0, 100⟩ : AnnEntry), ⟨entryTwo, 10, 110⟩]
    = some (100, ⟨entryTwo, 10, 110⟩) := by
  simp [availBeforeWalk, entryOne, entryTwo]

/-- Rounding fixes the constant 0. -/
theorem pyRound2_zero : pyRound2 0 = 0 := by
  norm_num [pyRound2, pyRoundInt, Int.fract]

/-- Rounding fixes the constant 10. -/
theorem pyRound2_ten : pyRound2 10 = 10 := by
  norm_num [pyRound2, pyRoundInt, Int.fract]

/-- Rounding fixes the constant 100. -/
theorem pyRound2_hundred : pyRound2 100 = 100 := by
  norm_num [pyRound2, pyRoundInt, Int.fract]

/-- Replacing the fields of entry 2 with its own values except the
withdrawal changes only `usedFromSaved`. -/
theorem replace_entryTwo (used : ℚ) :
    replaceFields entryTwo 10 0 0 100 10 used (keyFeb) (tyMonthly)
    = { entryTwo with usedFromSaved := pyRound2 used } := by
  have h0 : ((10 : ℚ) * 0 / 100) = 0 := by norm_num
  have h10 : ((10 : ℚ) * 100 / 100) = 10 := by norm_num
  simp only [replaceFields, entryTwo, h0, h10, pyRound2_zero, pyRound2_ten]

/-- Full evaluation of the edit flow on entry 2 of the two-entry kid as a
function of the requested withdrawal. -/
theorem kidTwo_edit_eval (used : ℚ) :
    ui_edit_entry kidTwo 2 10 0 0 100 10 used (keyFeb) (tyMonthly)
    = if used < 0 then .error .validationError
      else if used > 100 then .error .overdraw
      else .ok { kidTwo with entries :=
        [{ entryTwo with usedFromSaved := pyRound2 used }, entryOne] } := by
  have hdm : dm_update_entry kidTwo 2 10 0 0 100 10 used (keyFeb) (tyMonthly)
      = some { kidTwo with entries :=
        [{ entryTwo with usedFromSaved := pyRound2 used }, entryOne] } := by
    have hid : (entryTwo.id == 2) = true := by simp [entryTwo]
    have hper : ((keyFeb != entryTwo.period)
        && ([entryTwo, entryOne].any (fun o => o.id != 2 && o.period == keyFeb))) = false := by
      simp [entryTwo]
    simp only [dm_update_entry, kidTwo, dm_update_go, hid, hper, if_true,
      Bool.false_eq_true, if_false, replace_entryTwo]
    simp [kidTwo]
  have hsaved : entryTwo.saved = 0 := by simp [entryTwo]
  have hamount : ¬ ((10 : ℚ) ≤ 0) := by norm_num
  have hpct : ¬ (|(0 : ℚ) + 0 + 100 - 100| > 1/100) := by norm_num
  simp only [ui_edit_entry, calc_kidTwo_entries, sort_ann_pair, walk_kidTwo, hamount,
    hpct, if_false]
  norm_num [hdm, hsaved]

/-- C2 counterexample: on the two-entry kid whose fold ends at 110.00, the
claim predicts that editing entry 2 to withdraw 110 succeeds; the code
rejects it with Overdraw, because the edit ceiling is the prior balance 100
plus the own saved share 0 of entry 2, excluding the interest accrued in
the period of entry 2 itself. -/
theorem c2_counterexample :
    ui_edit_entry kidTwo 2 10 0 0 100 10 110 keyFeb tyMonthly
    = .error .overdraw := by
  rw [kidTwo_edit_eval]
  norm_num

/-- C2 amended: the edit ceiling for entry 2 is 100 — the rounded running
balance before it plus its own saved share — so withdrawing 111 and even
110 fail with Overdraw (the update never reaching the data layer), while
withdrawing 100 succeeds, replaces only the withdrawal field, and the
recomputed final running balance is 10.00. -/
theorem c2_edit_ceiling_amended :
    ui_edit_entry kidTwo 2 10 0 0 100 10 111 keyFeb tyMonthly = .error .overdraw
    ∧ ui_edit_entry kidTwo 2 10 0 0 100 10 110 keyFeb tyMonthly = .error .overdraw
    ∧ ui_edit_entry kidTwo 2 10 0 0 100 10 100 keyFeb tyMonthly
      = .ok { kidTwo with entries := [{ entryTwo with usedFromSaved := 100 }, entryOne] }
    ∧ (calculate_totals [{ entryTwo with usedFromSaved := 100 }, entryOne]).totalSaved
      = 10 := by
  have hsortE : sortByKey Entry.period [{ entryTwo with usedFromSaved := 100 }, entryOne]
      = [entryOne, { entryTwo with usedFromSaved := 100 }] := by
    simp [sortByKey, insertByKey, keyLt, entryOne, entryTwo, keyJan, keyFeb]
  refine ⟨?_, ?_, ?_, ?_⟩
  · rw [kidTwo_edit_eval]; norm_num
  · rw [kidTwo_edit_eval]; norm_num
  · rw [kidTwo_edit_eval]
    norm_num [pyRound2_hundred]
  · simp only [calculate_totals, hsortE]
    simp only [List.foldl, stepEntry, initState]
    norm_num [entryOne, entryTwo, pyRound2, pyRoundInt, Int.fract]

/-- The saved balance `_calculate_totals` reports for the one-entry kid. -/
theorem totalSaved_kidC3 : (calculate_totals kidC3.entries).totalSaved = 100 := by
  have hsort1 : sortByKey Entry.period [entryOne] = [entryOne] := by
    simp [sortByKey, insertByKey]
  simp only [kidC3, calculate_totals, hsort1]
  simp only [List.foldl, stepEntry, initState]
  norm_num [entryOne, pyRound2, pyRoundInt, Int.fract]

/-- C3 counterexample: the kid holds 100 saved from 2024-01; adding a
2024-02 entry of amount 125 (saved share 50 under the 40/40/20 allocation)
with withdrawal 120 is predicted to succeed by the claim, whose ceiling is
100 + 50 = 150; the code rejects it with Overdraw because its ceiling is
the kid current totalSaved of 100, ignoring the new entry own saved share. -/
theorem c3_counterexample :
    ui_add_entry kidC3 3 keyFeb tyMonthly 125 120 = .error .overdraw := by
  simp only [ui_add_entry, totalSaved_kidC3]
  norm_num

/-- C3 amended: when adding a new entry the withdrawal ceiling is the kid
current totalSaved — the final running balance over all existing entries,
independent of the position of the new key and without the new entry own
saved share: above it the add fails with Overdraw, at or below it (amount
positive, withdrawal non-negative, key not already used) the entry is
appended with the kid default allocation and rate. -/
theorem c3_add_ceiling_amended (kid : Kid) (newId : Nat) (pk pt : List Char)
    (amount used : ℚ) (hAmt : 0 < amount) (hUsed : 0 ≤ used) :
    ((calculate_totals kid.entries).totalSaved < used →
      ui_add_entry kid newId pk pt amount used = .error .overdraw)
    ∧ (used ≤ (calculate_totals kid.entries).totalSaved →
      (kid.entries.all (fun e => e.period != pk)) = true →
      ui_add_entry kid newId pk pt amount used
        = .ok { kid with entries := kid.entries ++
            [{ id := newId, period := pk, periodType := pt, amount := amount
               spentPercent := kid.allocationSpent, savedPercent := kid.allocationSaved
               givenPercent := kid.allocationGiven
               spent := pyRound2 (amount * kid.allocationSpent / 100)
               saved := pyRound2 (amount * kid.allocationSaved / 100)
               given := pyRound2 (amount * kid.allocationGiven / 100)
               usedFromSaved := pyRound2 used, interestRate := kid.interestRate }] }) := by
  constructor
  · intro h
    simp only [ui_add_entry, if_neg (not_le.mpr hAmt), if_neg (not_lt.mpr hUsed)]
    rw [if_pos]
    exact h
  · intro h hall
    have hany : (kid.entries.any (fun e => e.period == pk)) = false := by
      rw [List.any_eq_false]
      intro e he
      have he2 := (List.all_eq_true.mp hall) e he
      simpa using he2
    simp only [ui_add_entry, if_neg (not_le.mpr hAmt), if_neg (not_lt.mpr hUsed),
      if_neg (not_lt.mpr h), dm_add_entry, hany, Bool.false_eq_true, if_false]

/-- C3 witness: withdrawing exactly the available 100 while adding the
2024-02 entry succeeds. -/
theorem c3_add_ceiling_amended_witness :
    ∃ kid1, ui_add_entry kidC3 3 keyFeb tyMonthly 125 100 = .ok kid1 := by
  refine ⟨_, (c3_add_ceiling_amended kidC3 3 keyFeb tyMonthly 125 100
    (by norm_num) (by norm_num)).2 ?_ ?_⟩
  · rw [totalSaved_kidC3]
  · simp [kidC3, entryOne, keyJan, keyFeb]

/-- C4 counterexample: percentages summing to 50 are far outside the
100 ± 0.01 tolerance, yet `DataManager.add_entry` happily writes the entry:
no percentage-sum validation exists on the add path. -/
theorem c4_counterexample :
    |(50 : ℚ) + 0 + 0 - 100| > 1/100
    ∧ (dm_add_entry kidEmpty 1 keyJan tyMonthly 10 0 50 0 0 0).isSome = true := by
  constructor
  · norm_num
  · simp [dm_add_entry, kidEmpty]

/-- C4 amended: the add path validates amount positive and withdrawal
non-negative in the view handler before any mutation (a failed call never
reaches the data layer, so the entry list is untouched), but the
percentage-sum tolerance is not checked anywhere on the add path: the data
layer accepts any percentages once the period key is fresh. -/
theorem c4_add_validation_amended (kid : Kid) (newId : Nat) (pk pt : List Char)
    (amount used : ℚ) :
    (amount ≤ 0 → ui_add_entry kid newId pk pt amount used = .error .validationError)
    ∧ (used < 0 → ui_add_entry kid newId pk pt amount used = .error .validationError)
    ∧ (∀ rate spct svpct gvpct u2 : ℚ,
        (kid.entries.all (fun e => e.period != pk)) = true →
        (dm_add_entry kid newId pk pt amount rate spct svpct gvpct u2).isSome = true) := by
  refine ⟨?_, ?_, ?_⟩
  · intro h
    simp only [ui_add_entry, if_pos h]
  · intro h
    by_cases ha : amount ≤ 0
    · simp only [ui_add_entry, if_pos ha]
    · simp only [ui_add_entry, if_neg ha, if_pos h]
  · intro rate spct svpct gvpct u2 hall
    have hany : (kid.entries.any (fun e => e.period == pk)) = false := by
      rw [List.any_eq_false]
      intro e he
      have he2 := (List.all_eq_true.mp hall) e he
      simpa using he2
    simp [dm_add_entry, hany]

/-- C4 witness: a negative amount is rejected as a validation error. -/
theorem c4_add_validation_amended_witness :
    ui_add_entry kidEmpty 1 keyJan tyMonthly (-5) 0 = .error .validationError :=
  (c4_add_validation_amended kidEmpty 1 keyJan tyMonthly (-5) 0).1 (by norm_num)

/-- C5: once any entry of the kid owns the period key — whatever period
type the new call carries — `DataManager.add_entry` returns the duplicate
failure before touching the entry list, and the composed add flow surfaces
it as DuplicatePeriod whenever the earlier validations pass. -/
theorem c5_duplicate_rejected (kid : Kid) (newId : Nat) (pk pt : List Char)
    (amount rate spct svpct gvpct used : ℚ)
    (hdup : (kid.entries.any (fun e => e.period == pk)) = true) :
    dm_add_entry kid newId pk pt amount rate spct svpct gvpct used = none
    ∧ (∀ amount2 used2 : ℚ, 0 < amount2 → 0 ≤ used2 →
        used2 ≤ (calculate_totals kid.entries).totalSaved →
        ui_add_entry kid newId pk pt amount2 used2 = .error .duplicatePeriod) := by
  constructor
  · simp [dm_add_entry, hdup]
  · intro amount2 used2 h1 h2 h3
    simp only [ui_add_entry, if_neg (not_le.mpr h1), if_neg (not_lt.mpr h2),
      if_neg (not_lt.mpr h3), dm_add_entry, hdup, if_true]

/-- C5 witness: adding a second entry on the key 2024-01 with a weekly
period type is still rejected and the entry list result is none. -/
theorem c5_duplicate_rejected_witness :
    dm_add_entry kidC3 9 keyJan tyWeekly 10 0 40 40 20 0 = none
    ∧ ui_add_entry kidC3 9 keyJan tyWeekly 10 0 = .error .duplicatePeriod := by
  have hdup : (kidC3.entries.any (fun e => e.period == keyJan)) = true := by
    simp [kidC3, entryOne]
  exact ⟨(c5_duplicate_rejected kidC3 9 keyJan tyWeekly 10 0 40 40 20 0 hdup).1,
    (c5_duplicate_rejected kidC3 9 keyJan tyWeekly 10 0 40 40 20 0 hdup).2 10 0
      (by norm_num) (by norm_num) (by rw [totalSaved_kidC3]; norm_num)⟩

/-- Weekly navigation one step forward then one step back is the identity
on valid weeks. -/
theorem nav_weekly_inv (y w : ℤ) (h1 : 1 ≤ w) (h2 : w ≤ get_max_weeks_in_year y) :
    navigate_period (navigate_period (.weekly y w) 1) (-1) = .weekly y w := by
  simp only [navigate_period]
  by_cases hb : w + 1 > get_max_weeks_in_year y
  · rw [if_neg (by omega), if_pos hb]
    simp only [navigate_period]
    rw [if_pos (by norm_num)]
    have hy : y + 1 - 1 = y := by ring
    rw [hy]
    have hw : w = get_max_weeks_in_year y := by omega
    rw [hw]
  · rw [if_neg (by omega), if_neg hb]
    simp only [navigate_period]
    rw [if_neg (by omega), if_neg (by omega)]
    congr 1
    ring

/-- Biweekly navigation one step forward then one step back is the
identity on valid biweeks. -/
theorem nav_biweekly_inv (y b : ℤ) (h1 : 1 ≤ b)
    (h2 : b ≤ (get_max_weeks_in_year y + 1).fdiv 2) :
    navigate_period (navigate_period (.biweekly y b) 1) (-1) = .biweekly y b := by
  simp only [navigate_period]
  by_cases hb : b + 1 > (get_max_weeks_in_year y + 1).fdiv 2
  · rw [if_neg (by omega), if_pos hb]
    simp only [navigate_period]
    rw [if_pos (by norm_num)]
    have hy : y + 1 - 1 = y := by ring
    rw [hy]
    have hw : b = (get_max_weeks_in_year y + 1).fdiv 2 := by omega
    rw [hw]
  · rw [if_neg (by omega), if_neg hb]
    simp only [navigate_period]
    rw [if_neg (by omega), if_neg (by omega)]
    congr 1
    ring

/-- Quarterly navigation one step forward then one step back is the
identity on valid quarters. -/
theorem nav_quarterly_inv (y q : ℤ) (h1 : 1 ≤ q) (h2 : q ≤ 4) :
    navigate_period (navigate_period (.quarterly y q) 1) (-1) = .quarterly y q := by
  simp only [navigate_period]
  by_cases hb : q + 1 > 4
  · rw [if_neg (by omega), if_pos hb]
    simp only [navigate_period]
    rw [if_pos (by norm_num)]
    have hy : y + 1 - 1 = y := by ring
    rw [hy]
    have hw : (4 : ℤ) = q := by omega
    rw [hw]
  · rw [if_neg (by omega), if_neg hb]
    simp only [navigate_period]
    rw [if_neg (by omega), if_neg (by omega)]
    congr 1
    ring

/-- Monthly navigation one step forward then one step back is the identity
on valid months. -/
theorem nav_monthly_inv (y m : ℤ) (h1 : 1 ≤ m) (h2 : m ≤ 12) :
    navigate_period (navigate_period (.monthly y m) 1) (-1) = .monthly y m := by
  simp only [navigate_period]
  by_cases hb : m + 1 > 12
  · rw [if_neg (by omega), if_pos hb]
    simp only [navigate_period]
    rw [if_pos (by norm_num)]
    have hy : y + 1 - 1 = y := by ring
    rw [hy]
    have hw : (12 : ℤ) = m := by omega
    rw [hw]
  · rw [if_neg (by omega), if_neg hb]
    simp only [navigate_period]
    rw [if_neg (by omega), if_neg (by omega)]
    congr 1
    ring

/-- C8: for every valid period of each of the four types, navigating one
unit forward then one unit backward returns the original period, across
year boundaries; and the backward wrap from index 1 lands on the previous
year at the last week (`maxWeeksInYear (y-1)`), last biweek
(`(maxWeeksInYear (y-1) + 1) / 2`), quarter 4, or month 12. -/
theorem c8_navigation_inverse :
    (∀ y w : ℤ, 1 ≤ w → w ≤ get_max_weeks_in_year y →
      navigate_period (navigate_period (.weekly y w) 1) (-1) = .weekly y w)
    ∧ (∀ y b : ℤ, 1 ≤ b → b ≤ (get_max_weeks_in_year y + 1).fdiv 2 →
      navigate_period (navigate_period (.biweekly y b) 1) (-1) = .biweekly y b)
    ∧ (∀ y q : ℤ, 1 ≤ q → q ≤ 4 →
      navigate_period (navigate_period (.quarterly y q) 1) (-1) = .quarterly y q)
    ∧ (∀ y m : ℤ, 1 ≤ m → m ≤ 12 →
      navigate_period (navigate_period (.monthly y m) 1) (-1) = .monthly y m)
    ∧ (∀ y : ℤ, navigate_period (.weekly y 1) (-1)
        = .weekly (y - 1) (get_max_weeks_in_year (y - 1)))
    ∧ (∀ y : ℤ, navigate_period (.biweekly y 1) (-1)
        = .biweekly (y - 1) ((get_max_weeks_in_year (y - 1) + 1).fdiv 2))
    ∧ (∀ y : ℤ, navigate_period (.quarterly y 1) (-1) = .quarterly (y - 1) 4)
    ∧ (∀ y : ℤ, navigate_period (.monthly y 1) (-1) = .monthly (y - 1) 12) := by
  refine ⟨nav_weekly_inv, nav_biweekly_inv, nav_quarterly_inv, nav_monthly_inv,
    ?_, ?_, ?_, ?_⟩ <;>
  · intro y
    simp only [navigate_period]
    rw [if_pos (by norm_num)]

/-- C8 witness: week 1 of 2024 navigated forward then backward is itself,
and navigated backward alone is the last ISO week of 2023, week 52. -/
theorem c8_navigation_inverse_witness :
    navigate_period (navigate_period (.weekly 2024 1) 1) (-1) = .weekly 2024 1
    ∧ navigate_period (.weekly 2024 1) (-1) = .weekly 2023 (get_max_weeks_in_year 2023)
    ∧ get_max_weeks_in_year 2023 = 52 := by
  refine ⟨c8_navigation_inverse.1 2024 1 (by norm_num) (by decide), ?_, by decide⟩
  have h := (c8_navigation_inverse.2.2.2.2.1) 2024
  norm_num at h
  exact h

/-- C9: for every year and every month, `get_month_dates` is the pair of
the first and the last calendar day of the month, and for every quarter
`get_quarter_dates` is the pair of the first day of its first month and
the last day of its third month, with leap-year February ending on the
29th via `monthLengthSpec`. -/
theorem c9_date_ranges :
    (∀ (y : ℤ) (m : Nat), 1 ≤ m → m ≤ 12 →
      get_month_dates m y = (toOrdinal y m 1, toOrdinal y m (monthLengthSpec y m)))
    ∧ (∀ (y : ℤ) (q : Nat), 1 ≤ q → q ≤ 4 →
      get_quarter_dates q y
        = (toOrdinal y ((q - 1) * 3 + 1) 1,
           toOrdinal y ((q - 1) * 3 + 3) (monthLengthSpec y ((q - 1) * 3 + 3)))) := by
  constructor
  · intro y m h1 h2
    interval_cases m <;>
      cases hL : isLeap y <;>
        simp [get_month_dates, toOrdinal, daysBeforeMonth, daysBeforeMonthTable,
          monthLengthSpec, hL] <;>
          omega
  · intro y q h1 h2
    interval_cases q <;>
      cases hL : isLeap y <;>
        simp [get_quarter_dates, toOrdinal, daysBeforeMonth, daysBeforeMonthTable,
          monthLengthSpec, hL] <;>
          omega

/-- C9 witness: February 2024 (a leap year) runs from the 1st to the 29th. -/
theorem c9_date_ranges_witness :
    get_month_dates 2 2024 = (toOrdinal 2024 2 1, toOrdinal 2024 2 29) := by
  have h := c9_date_ranges.1 2024 2 (by norm_num) (by norm_num)
  rw [h]
  norm_num [monthLengthSpec, isLeap]

/-- Banker rounding to an integer commutes with adding an integer as long
as the fractional part is not exactly one half. -/
theorem pyRoundInt_int_add (n : ℤ) (x : ℚ) (h : Int.fract x ≠ 1/2) :
    pyRoundInt ((n : ℚ) + x) = n + pyRoundInt x := by
  have hf : Int.fract ((n : ℚ) + x) = Int.fract x := Int.fract_int_add n x
  have hfl : ⌊(n : ℚ) + x⌋ = n + ⌊x⌋ := Int.floor_int_add n x
  rw [pyRoundInt, pyRoundInt, hf, hfl, if_neg h, if_neg h]
  split_ifs <;> ring

/-- Two-decimal rounding commutes with adding a whole-cent value as long
as the scaled remainder is not a rounding tie. -/
theorem pyRound2_cent_add (n : ℤ) (x : ℚ) (h : Int.fract (100 * x) ≠ 1/2) :
    pyRound2 ((n : ℚ)/100 + x) = (n : ℚ)/100 + pyRound2 x := by
  have harg : (100 : ℚ) * ((n : ℚ)/100 + x) = (n : ℚ) + 100 * x := by ring
  rw [pyRound2, harg, pyRoundInt_int_add n _ h, pyRound2]
  push_cast
  ring

/-- Two-decimal rounding fixes whole-cent values. -/
theorem pyRound2_cent (n : ℤ) : pyRound2 ((n : ℚ)/100) = (n : ℚ)/100 := by
  have h0 : Int.fract ((100 : ℚ) * 0) = 0 := by norm_num
  have := pyRound2_cent_add n 0 (by rw [h0]; norm_num)
  simpa [pyRound2_zero] using this

/-- The three reported running sums of the fold are the sums of the
corresponding entry fields. -/
theorem foldl_stepEntry_sums (l : List Entry) (s : FoldState) :
    (l.foldl stepEntry s).totalSpent = s.totalSpent + (l.map Entry.spent).sum
    ∧ (l.foldl stepEntry s).totalGiven = s.totalGiven + (l.map Entry.given).sum
    ∧ (l.foldl stepEntry s).totalUsedFromSaved
      = s.totalUsedFromSaved + (l.map Entry.usedFromSaved).sum := by
  induction l generalizing s with
  | nil => simp
  | cons e rest ih =>
    obtain ⟨h1, h2, h3⟩ := ih (stepEntry s e)
    refine ⟨?_, ?_, ?_⟩ <;>
      simp only [List.foldl_cons, h1, h2, h3, List.map_cons, List.sum_cons] <;>
        simp only [stepEntry] <;> ring

/-- Membership in a key insertion. -/
theorem mem_insertByKey (key : α → List Char) (e x : α) (l : List α) :
    x ∈ insertByKey key e l ↔ x = e ∨ x ∈ l := by
  induction l with
  | nil => simp [insertByKey]
  | cons y ys ih =>
    by_cases h : keyLt (key y) (key e) = true
    · simp only [insertByKey, if_pos h, List.mem_cons, ih]
      tauto
    · simp only [insertByKey, if_neg h, List.mem_cons]
      try tauto

/-- Sorting by key neither adds nor removes elements. -/
theorem mem_sortByKey (key : α → List Char) (l : List α) (x : α) :
    x ∈ sortByKey key l ↔ x ∈ l := by
  induction l with
  | nil => simp [sortByKey]
  | cons y ys ih =>
    have hstep : sortByKey key (y :: ys) = insertByKey key y (sortByKey key ys) := rfl
    rw [hstep, mem_insertByKey, ih, List.mem_cons]

/-- A sum of whole-cent values is a whole-cent value. -/
theorem sum_cents (l : List Entry) (f : Entry → ℚ)
    (h : ∀ e ∈ l, ∃ n : ℤ, f e = (n : ℚ)/100) :
    ∃ n : ℤ, (l.map f).sum = (n : ℚ)/100 := by
  induction l with
  | nil => exact ⟨0, by simp⟩
  | cons e rest ih =>
    obtain ⟨n1, hn1⟩ := h e (by simp)
    obtain ⟨n2, hn2⟩ := ih (fun x hx => h x (by simp [hx]))
    refine ⟨n1 + n2, ?_⟩
    rw [List.map_cons, List.sum_cons, hn1, hn2]
    push_cast
    ring

/-- C6 amended: for entries whose stored spent, given and withdrawal
fields are whole cents — as `add_entry` and `update_entry` store them —
and whose final running balance does not scale to an exact half-cent tie,
the six independently rounded aggregates satisfy
grandTotal = totalSpent + totalSaved + totalGiven, where the reported
totalSpent already includes the withdrawals. -/
theorem c6_reporting_identity (entries : List Entry)
    (hc : ∀ e ∈ entries, (∃ n : ℤ, e.spent = (n : ℚ)/100)
      ∧ (∃ n : ℤ, e.given = (n : ℚ)/100)
      ∧ (∃ n : ℤ, e.usedFromSaved = (n : ℚ)/100))
    (htie : Int.fract (100 *
        ((sortByKey Entry.period entries).foldl stepEntry initState).runningSaved)
      ≠ 1/2) :
    (calculate_totals entries).grandTotal
      = (calculate_totals entries).totalSpent + (calculate_totals entries).totalSaved
        + (calculate_totals entries).totalGiven := by
  have hmem : ∀ e ∈ sortByKey Entry.period entries,
      (∃ n : ℤ, e.spent = (n : ℚ)/100) ∧ (∃ n : ℤ, e.given = (n : ℚ)/100)
      ∧ (∃ n : ℤ, e.usedFromSaved = (n : ℚ)/100) := by
    intro e he
    exact hc e ((mem_sortByKey Entry.period entries e).mp he)
  obtain ⟨hS, hG, hU⟩ := foldl_stepEntry_sums (sortByKey Entry.period entries) initState
  obtain ⟨nS, hnS⟩ := sum_cents _ Entry.spent (fun e he => (hmem e he).1)
  obtain ⟨nG, hnG⟩ := sum_cents _ Entry.given (fun e he => (hmem e he).2.1)
  obtain ⟨nU, hnU⟩ := sum_cents _ Entry.usedFromSaved (fun e he => (hmem e he).2.2)
  have hS0 : ((sortByKey Entry.period entries).foldl stepEntry initState).totalSpent
      = (nS : ℚ)/100 := by rw [hS, hnS]; simp [initState]
  have hG0 : ((sortByKey Entry.period entries).foldl stepEntry initState).totalGiven
      = (nG : ℚ)/100 := by rw [hG, hnG]; simp [initState]
  have hU0 : ((sortByKey Entry.period entries).foldl stepEntry initState).totalUsedFromSaved
      = (nU : ℚ)/100 := by rw [hU, hnU]; simp [initState]
  simp only [calculate_totals, hS0, hG0, hU0]
  have e1 : (nS : ℚ)/100 + (nU : ℚ)/100
      + ((sortByKey Entry.period entries).foldl stepEntry initState).runningSaved
      + (nG : ℚ)/100
      = ((nS + nU + nG : ℤ) : ℚ)/100
        + ((sortByKey Entry.period entries).foldl stepEntry initState).runningSaved := by
    push_cast
    ring
  have e2 : (nS : ℚ)/100 + (nU : ℚ)/100 = ((nS + nU : ℤ) : ℚ)/100 := by
    push_cast
    ring
  rw [e1, e2, pyRound2_cent_add _ _ htie, pyRound2_cent, pyRound2_cent]
  push_cast
  ring

/-- C6 witness: the identity holds on the two-entry spec kid, whose final
balance 110 is tie-free and whose stored fields are whole cents. -/
theorem c6_reporting_identity_witness :
    (calculate_totals [entryTwo, entryOne]).grandTotal
      = (calculate_totals [entryTwo, entryOne]).totalSpent
        + (calculate_totals [entryTwo, entryOne]).totalSaved
        + (calculate_totals [entryTwo, entryOne]).totalGiven := by
  have hfold : ((sortByKey Entry.period [entryTwo, entryOne]).foldl stepEntry
      initState).runningSaved = 110 := by
    rw [sort_spec_pair]
    simp only [List.foldl, stepEntry, initState]
    norm_num [entryOne, entryTwo]
  refine c6_reporting_identity [entryTwo, entryOne] ?_ ?_
  · intro e he
    simp only [List.mem_cons, List.not_mem_nil, or_false] at he
    rcases he with h | h <;> subst h
    · exact ⟨⟨0, by norm_num [entryTwo]⟩, ⟨1000, by norm_num [entryTwo]⟩,
        ⟨0, by norm_num [entryTwo]⟩⟩
    · exact ⟨⟨10000, by norm_num [entryOne]⟩, ⟨5000, by norm_num [entryOne]⟩,
        ⟨0, by norm_num [entryOne]⟩⟩
  · rw [hfold]
    norm_num [Int.fract]

/-- C6 counterexample: on a kid of two whole-cent entries whose interest
step leaves the final balance at 0.055 — an exact half-cent tie — banker
rounding sends grandTotal to 0.12 but the three addends to
0.05 + 0.06 + 0.02 = 0.13, so the identity fails as a universal claim. -/
theorem c6_counterexample :
    ¬ ((calculate_totals [entryCentA, entryCentB]).grandTotal
      = (calculate_totals [entryCentA, entryCentB]).totalSpent
        + (calculate_totals [entryCentA, entryCentB]).totalSaved
        + (calculate_totals [entryCentA, entryCentB]).totalGiven) := by
  have hsortC : sortByKey Entry.period [entryCentA, entryCentB]
      = [entryCentA, entryCentB] := by
    simp [sortByKey, insertByKey, keyLt, keyJan, keyFeb, entryCentA, entryCentB]
  simp only [calculate_totals, hsortC]
  simp only [List.foldl, stepEntry, initState]
  norm_num [entryCentA, entryCentB, pyRound2, pyRoundInt, Int.fract]

/-- Digit lists produced by `digitsRev` have digits below 10. -/
theorem digitsRev_lt_ten (n : Nat) : ∀ d ∈ digitsRev n, d < 10 := by
  induction n using Nat.strong_induction_on with
  | _ n ih =>
    by_cases h : n = 0
    · rw [digitsRev, if_pos h]
      simp
    · rw [digitsRev, if_neg h]
      intro d hd
      rcases List.mem_cons.mp hd with h1 | h1
      · subst h1
        exact Nat.mod_lt n (by norm_num)
      · exact ih (n / 10) (Nat.div_lt_self (Nat.pos_of_ne_zero h) (by norm_num)) d h1

/-- `ofDigitsRev` inverts `digitsRev`. -/
theorem ofDigitsRev_digitsRev (n : Nat) : ofDigitsRev (digitsRev n) = n := by
  induction n using Nat.strong_induction_on with
  | _ n ih =>
    by_cases h : n = 0
    · rw [digitsRev, if_pos h, h, ofDigitsRev]
    · rw [digitsRev, if_neg h, ofDigitsRev,
        ih (n / 10) (Nat.div_lt_self (Nat.pos_of_ne_zero h) (by norm_num))]
      omega

/-- A trailing zero digit does not change the value. -/
theorem ofDigitsRev_append_zero (ds : List Nat) :
    ofDigitsRev (ds ++ [0]) = ofDigitsRev ds := by
  induction ds with
  | nil => simp [ofDigitsRev]
  | cons d ds ih => rw [List.cons_append, ofDigitsRev, ih, ofDigitsRev]

/-- The character of a digit below ten is a digit character. -/
theorem isDigitC_digitToChar (d : Nat) (h : d < 10) :
    isDigitC (digitToChar d) = true := by
  interval_cases d <;> decide

/-- Taking the value of the character of a digit below ten is the
identity. -/
theorem charVal_digitToChar (d : Nat) (h : d < 10) :
    charVal (digitToChar d) = d := by
  interval_cases d <;> decide

/-- Every character of `natChars n` is a digit character. -/
theorem natChars_all_digit (n : Nat) : (natChars n).all isDigitC = true := by
  rw [natChars]
  by_cases h : n = 0
  · rw [if_pos h]
    decide
  · rw [if_neg h, List.all_eq_true]
    intro c hc
    obtain ⟨d, hd, hdc⟩ := List.mem_map.mp hc
    rw [← hdc]
    exact isDigitC_digitToChar d (digitsRev_lt_ten n d (List.mem_reverse.mp hd))

/-- `natChars` is never empty. -/
theorem natChars_ne_nil (n : Nat) : natChars n ≠ [] := by
  rw [natChars]
  by_cases h : n = 0
  · rw [if_pos h]
    simp
  · rw [if_neg h]
    have : digitsRev n ≠ [] := by
      rw [digitsRev, if_neg h]
      simp
    simp [this]

/-- `toNatC` inverts `natChars`. -/
theorem toNatC_natChars (n : Nat) : toNatC (natChars n) = some n := by
  rw [toNatC, if_neg (by simp [natChars_ne_nil n]), if_pos (natChars_all_digit n)]
  by_cases h : n = 0
  · subst h
    decide
  · rw [natChars, if_neg h]
    have hmap : ((digitsRev n).reverse.map digitToChar).map charVal
        = (digitsRev n).reverse := by
      rw [List.map_map]
      have : ∀ d ∈ (digitsRev n).reverse, (charVal ∘ digitToChar) d = id d := by
        intro d hd
        exact charVal_digitToChar d (digitsRev_lt_ten n d (List.mem_reverse.mp hd))
      rw [List.map_congr_left this, List.map_id]
    rw [hmap, List.reverse_reverse, ofDigitsRev_digitsRev]

/-- Every character of `pad2 n` is a digit character. -/
theorem pad2_all_digit (n : Nat) : (pad2 n).all isDigitC = true := by
  rw [pad2]
  by_cases h : n < 10
  · rw [if_pos h, List.all_cons, natChars_all_digit n]
    decide
  · rw [if_neg h]
    exact natChars_all_digit n

/-- `pad2` is never empty. -/
theorem pad2_ne_nil (n : Nat) : pad2 n ≠ [] := by
  rw [pad2]
  by_cases h : n < 10
  · rw [if_pos h]
    simp
  · rw [if_neg h]
    exact natChars_ne_nil n

/-- `toNatC` inverts `pad2`: the leading zero pad does not change the
parsed value. -/
theorem toNatC_pad2 (n : Nat) : toNatC (pad2 n) = some n := by
  rw [pad2]
  by_cases h : n < 10
  · rw [if_pos h, toNatC, if_neg (by simp), if_pos (by
      rw [List.all_cons, natChars_all_digit n]
      decide)]
    congr 1
    have hzero : charVal '0' = 0 := by decide
    rw [List.map_cons, hzero, List.reverse_cons, ofDigitsRev_append_zero]
    have := toNatC_natChars n
    rw [toNatC, if_neg (by simp [natChars_ne_nil n]),
      if_pos (natChars_all_digit n)] at this
    exact Option.some.inj this
  · rw [if_neg h]
    exact toNatC_natChars n

/-- A dash is not a digit character, so a separator starting with a dash
is not a prefix at a digit character. -/
theorem isPrefixOf_dash_digit (s' : List Char) (c : Char) (h : isDigitC c = true)
    (l : List Char) : List.isPrefixOf ('-' :: s') (c :: l) = false := by
  have hne : ('-' == c) = false := by
    rw [beq_eq_false_iff_ne]
    intro he
    rw [← he] at h
    exact absurd h (by decide)
  simp [List.isPrefixOf, hne]

/-- A separator whose head is not a digit is not a prefix of a non-empty
all-digit string. -/
theorem isPrefixOf_nondigit_head (ch : Char) (s' : List Char) (hch : isDigitC ch = false)
    (cs : List Char) (hcs : cs.all isDigitC = true) (hne : cs ≠ []) :
    List.isPrefixOf (ch :: s') cs = false := by
  cases cs with
  | nil => exact absurd rfl hne
  | cons c rest =>
    have hc : isDigitC c = true := by
      rw [List.all_cons, Bool.and_eq_true] at hcs
      exact hcs.1
    have hne2 : (ch == c) = false := by
      rw [beq_eq_false_iff_ne]
      intro he
      rw [he, hc] at hch
      exact absurd hch (by decide)
    simp [List.isPrefixOf, hne2]

/-- Scanning an all-digit prefix cannot match a dash-headed separator, so
substring search passes over it. -/
theorem hasSubstr_digits_append (s' : List Char) (xs : List Char)
    (h : xs.all isDigitC = true) (l : List Char) :
    hasSubstr ('-' :: s') (xs ++ l) = hasSubstr ('-' :: s') l := by
  induction xs with
  | nil => rw [List.nil_append]
  | cons c cs ih =>
    rw [List.all_cons, Bool.and_eq_true] at h
    obtain ⟨hc, hcs⟩ := h
    rw [List.cons_append, hasSubstr, isPrefixOf_dash_digit s' c hc, ih hcs,
      Bool.false_or]

/-- An all-digit string contains no dash-headed separator. -/
theorem hasSubstr_digits (s' : List Char) (cs : List Char)
    (h : cs.all isDigitC = true) : hasSubstr ('-' :: s') cs = false := by
  have h2 := hasSubstr_digits_append s' cs h []
  rw [List.append_nil] at h2
  rw [h2, hasSubstr]
  rfl

/-- Splitting at the first separator occurrence after an all-digit prefix
returns exactly the prefix and the remainder after the separator. -/
theorem splitFirst_digits_append (s' : List Char) (xs : List Char)
    (hxs : xs.all isDigitC = true) (l : List Char)
    (hl : List.isPrefixOf ('-' :: s') l = true) :
    splitFirst ('-' :: s') (xs ++ l) = some (xs, l.drop ('-' :: s').length) := by
  induction xs with
  | nil =>
    rw [List.nil_append]
    cases l with
    | nil => exact absurd hl (by simp [List.isPrefixOf])
    | cons c rest =>
      rw [splitFirst, if_pos hl]
  | cons c cs ih =>
    rw [List.all_cons, Bool.and_eq_true] at hxs
    obtain ⟨hc, hcs⟩ := hxs
    rw [List.cons_append, splitFirst, if_neg (by
      rw [isPrefixOf_dash_digit s' c hc]
      exact Bool.false_ne_true), ih hcs]

/-- Character comparison facts used by the key-shape analysis. -/
theorem beq_W_B : ('W' == 'B') = false := by decide

/-- The dash does not match B. -/
theorem beq_dash_B : ('-' == 'B') = false := by decide

/-- The dash does not match W. -/
theorem beq_dash_W : ('-' == 'W') = false := by decide

/-- W does not match Q. -/
theorem beq_W_Q : ('W' == 'Q') = false := by decide

/-- The dash does not match Q. -/
theorem beq_dash_Q : ('-' == 'Q') = false := by decide

/-- B does not match Q. -/
theorem beq_B_Q : ('B' == 'Q') = false := by decide

/-- Parsing a generated weekly key returns the year and week. -/
theorem parse_weekly_key (ny nw : Nat) :
    parse_period_key (natChars ny ++ '-' :: 'W' :: pad2 nw)
      = some (.weekly (Int.ofNat ny) (Int.ofNat nw)) := by
  have hpre : List.isPrefixOf ['-', 'W'] ('-' :: 'W' :: pad2 nw) = true := by
    simp [List.isPrefixOf]
  have hhas : hasSubstr ['-', 'W'] (natChars ny ++ '-' :: 'W' :: pad2 nw) = true := by
    rw [hasSubstr_digits_append ['W'] (natChars ny) (natChars_all_digit ny),
      hasSubstr, hpre, Bool.true_or]
  have hsplit : splitFirst ['-', 'W'] (natChars ny ++ '-' :: 'W' :: pad2 nw)
      = some (natChars ny, pad2 nw) :=
    splitFirst_digits_append ['W'] (natChars ny) (natChars_all_digit ny) _ hpre
  have hws : hasSubstr ['-', 'W'] (pad2 nw) = false :=
    hasSubstr_digits ['W'] (pad2 nw) (pad2_all_digit nw)
  simp only [parse_period_key, hhas, if_true, hsplit, hws, Bool.false_eq_true,
    if_false, toNatC_natChars, toNatC_pad2]

/-- Parsing a generated biweekly key returns the year and biweek: the
weekly branch does not fire because no dash is followed by W. -/
theorem parse_biweekly_key (ny nb : Nat) :
    parse_period_key (natChars ny ++ '-' :: 'B' :: 'W' :: pad2 nb)
      = some (.biweekly (Int.ofNat ny) (Int.ofNat nb)) := by
  have hnW : hasSubstr ['-', 'W'] (natChars ny ++ '-' :: 'B' :: 'W' :: pad2 nb)
      = false := by
    rw [hasSubstr_digits_append ['W'] (natChars ny) (natChars_all_digit ny)]
    simp only [hasSubstr]
    rw [hasSubstr_digits ['W'] (pad2 nb) (pad2_all_digit nb)]
    simp [List.isPrefixOf, beq_W_B, beq_dash_B, beq_dash_W,
      isPrefixOf_nondigit_head 'W' [] (by decide) (pad2 nb) (pad2_all_digit nb)
        (pad2_ne_nil nb)]
  have hpre : List.isPrefixOf ['-', 'B', 'W'] ('-' :: 'B' :: 'W' :: pad2 nb) = true := by
    simp [List.isPrefixOf]
  have hhas : hasSubstr ['-', 'B', 'W'] (natChars ny ++ '-' :: 'B' :: 'W' :: pad2 nb)
      = true := by
    rw [hasSubstr_digits_append ['B', 'W'] (natChars ny) (natChars_all_digit ny),
      hasSubstr, hpre, Bool.true_or]
  have hsplit : splitFirst ['-', 'B', 'W'] (natChars ny ++ '-' :: 'B' :: 'W' :: pad2 nb)
      = some (natChars ny, pad2 nb) :=
    splitFirst_digits_append ['B', 'W'] (natChars ny) (natChars_all_digit ny) _ hpre
  have hbs : hasSubstr ['-', 'B', 'W'] (pad2 nb) = false :=
    hasSubstr_digits ['B', 'W'] (pad2 nb) (pad2_all_digit nb)
  simp only [parse_period_key, hnW, Bool.false_eq_true, if_false, hhas, if_true,
    hsplit, hbs, toNatC_natChars, toNatC_pad2]

/-- Parsing a generated quarterly key returns the year and quarter. -/
theorem parse_quarterly_key (ny nq : Nat) :
    parse_period_key (natChars ny ++ '-' :: 'Q' :: natChars nq)
      = some (.quarterly (Int.ofNat ny) (Int.ofNat nq)) := by
  have hnW : hasSubstr ['-', 'W'] (natChars ny ++ '-' :: 'Q' :: natChars nq)
      = false := by
    rw [hasSubstr_digits_append ['W'] (natChars ny) (natChars_all_digit ny)]
    simp only [hasSubstr]
    rw [hasSubstr_digits ['W'] (natChars nq) (natChars_all_digit nq)]
    simp [List.isPrefixOf, beq_W_Q, beq_dash_Q,
      isPrefixOf_nondigit_head 'W' [] (by decide) (natChars nq)
        (natChars_all_digit nq) (natChars_ne_nil nq)]
  have hnBW : hasSubstr ['-', 'B', 'W'] (natChars ny ++ '-' :: 'Q' :: natChars nq)
      = false := by
    rw [hasSubstr_digits_append ['B', 'W'] (natChars ny) (natChars_all_digit ny)]
    simp only [hasSubstr]
    rw [hasSubstr_digits ['B', 'W'] (natChars nq) (natChars_all_digit nq)]
    simp [List.isPrefixOf, beq_B_Q, beq_dash_Q,
      isPrefixOf_nondigit_head 'B' ['W'] (by decide) (natChars nq)
        (natChars_all_digit nq) (natChars_ne_nil nq)]
  have hpre : List.isPrefixOf ['-', 'Q'] ('-' :: 'Q' :: natChars nq) = true := by
    simp [List.isPrefixOf]
  have hhas : hasSubstr ['-', 'Q'] (natChars ny ++ '-' :: 'Q' :: natChars nq)
      = true := by
    rw [hasSubstr_digits_append ['Q'] (natChars ny) (natChars_all_digit ny),
      hasSubstr, hpre, Bool.true_or]
  have hsplit : splitFirst ['-', 'Q'] (natChars ny ++ '-' :: 'Q' :: natChars nq)
      = some (natChars ny, natChars nq) :=
    splitFirst_digits_append ['Q'] (natChars ny) (natChars_all_digit ny) _ hpre
  have hqs : hasSubstr ['-', 'Q'] (natChars nq) = false :=
    hasSubstr_digits ['Q'] (natChars nq) (natChars_all_digit nq)
  simp only [parse_period_key, hnW, hnBW, Bool.false_eq_true, if_false, hhas,
    if_true, hsplit, hqs, toNatC_natChars]

/-- Parsing a generated monthly key returns the year and month through the
fall-through branch. -/
theorem parse_monthly_key (ny nm : Nat) :
    parse_period_key (natChars ny ++ '-' :: pad2 nm)
      = some (.monthly (Int.ofNat ny) (Int.ofNat nm)) := by
  have hnW : hasSubstr ['-', 'W'] (natChars ny ++ '-' :: pad2 nm) = false := by
    rw [hasSubstr_digits_append ['W'] (natChars ny) (natChars_all_digit ny)]
    simp only [hasSubstr]
    rw [hasSubstr_digits ['W'] (pad2 nm) (pad2_all_digit nm)]
    simp [List.isPrefixOf,
      isPrefixOf_nondigit_head 'W' [] (by decide) (pad2 nm) (pad2_all_digit nm)
        (pad2_ne_nil nm)]
  have hnBW : hasSubstr ['-', 'B', 'W'] (natChars ny ++ '-' :: pad2 nm) = false := by
    rw [hasSubstr_digits_append ['B', 'W'] (natChars ny) (natChars_all_digit ny)]
    simp only [hasSubstr]
    rw [hasSubstr_digits ['B', 'W'] (pad2 nm) (pad2_all_digit nm)]
    simp [List.isPrefixOf,
      isPrefixOf_nondigit_head 'B' ['W'] (by decide) (pad2 nm) (pad2_all_digit nm)
        (pad2_ne_nil nm)]
  have hnQ : hasSubstr ['-', 'Q'] (natChars ny ++ '-' :: pad2 nm) = false := by
    rw [hasSubstr_digits_append ['Q'] (natChars ny) (natChars_all_digit ny)]
    simp only [hasSubstr]
    rw [hasSubstr_digits ['Q'] (pad2 nm) (pad2_all_digit nm)]
    simp [List.isPrefixOf,
      isPrefixOf_nondigit_head 'Q' [] (by decide) (pad2 nm) (pad2_all_digit nm)
        (pad2_ne_nil nm)]
  have hpre : List.isPrefixOf ['-'] ('-' :: pad2 nm) = true := by
    simp [List.isPrefixOf]
  have hsplit : splitFirst ['-'] (natChars ny ++ '-' :: pad2 nm)
      = some (natChars ny, pad2 nm) :=
    splitFirst_digits_append [] (natChars ny) (natChars_all_digit ny) _ hpre
  have hms : hasSubstr ['-'] (pad2 nm) = false :=
    hasSubstr_digits [] (pad2 nm) (pad2_all_digit nm)
  simp only [parse_period_key, hnW, hnBW, hnQ, Bool.false_eq_true, if_false,
    hsplit, hms, toNatC_natChars, toNatC_pad2]

/-- C7: for every valid period of each of the four types, converting to
the canonical key string and parsing the key back is a lossless round
trip. -/
theorem c7_key_roundtrip :
    (∀ y w : ℤ, 1 ≤ y → 1 ≤ w → w ≤ 53 →
      parse_period_key (get_period_key (.weekly y w)) = some (.weekly y w))
    ∧ (∀ y b : ℤ, 1 ≤ y → 1 ≤ b → b ≤ 27 →
      parse_period_key (get_period_key (.biweekly y b)) = some (.biweekly y b))
    ∧ (∀ y q : ℤ, 1 ≤ y → 1 ≤ q → q ≤ 4 →
      parse_period_key (get_period_key (.quarterly y q)) = some (.quarterly y q))
    ∧ (∀ y m : ℤ, 1 ≤ y → 1 ≤ m → m ≤ 12 →
      parse_period_key (get_period_key (.monthly y m)) = some (.monthly y m)) := by
  refine ⟨?_, ?_, ?_, ?_⟩
  · intro y w hy hw1 hw2
    rw [get_period_key, parse_weekly_key]
    have h1 : Int.ofNat y.toNat = y := by
      rw [Int.ofNat_eq_natCast]
      exact Int.toNat_of_nonneg (by omega)
    have h2 : Int.ofNat w.toNat = w := by
      rw [Int.ofNat_eq_natCast]
      exact Int.toNat_of_nonneg (by omega)
    rw [h1, h2]
  · intro y b hy hb1 hb2
    rw [get_period_key, parse_biweekly_key]
    have h1 : Int.ofNat y.toNat = y := by
      rw [Int.ofNat_eq_natCast]
      exact Int.toNat_of_nonneg (by omega)
    have h2 : Int.ofNat b.toNat = b := by
      rw [Int.ofNat_eq_natCast]
      exact Int.toNat_of_nonneg (by omega)
    rw [h1, h2]
  · intro y q hy hq1 hq2
    rw [get_period_key, parse_quarterly_key]
    have h1 : Int.ofNat y.toNat = y := by
      rw [Int.ofNat_eq_natCast]
      exact Int.toNat_of_nonneg (by omega)
    have h2 : Int.ofNat q.toNat = q := by
      rw [Int.ofNat_eq_natCast]
      exact Int.toNat_of_nonneg (by omega)
    rw [h1, h2]
  · intro y m hy hm1 hm2
    rw [get_period_key, parse_monthly_key]
    have h1 : Int.ofNat y.toNat = y := by
      rw [Int.ofNat_eq_natCast]
      exact Int.toNat_of_nonneg (by omega)
    have h2 : Int.ofNat m.toNat = m := by
      rw [Int.ofNat_eq_natCast]
      exact Int.toNat_of_nonneg (by omega)
    rw [h1, h2]

/-- C7 witness: the round trip on week 5 of 2024. -/
theorem c7_key_roundtrip_witness :
    parse_period_key (get_period_key (.weekly 2024 5)) = some (.weekly 2024 5) :=
  c7_key_roundtrip.1 2024 5 (by norm_num) (by norm_num) (by norm_num)
